import Mathlib

/-!
Verification of the NFe (Nota Fiscal Eletrônica) synchronization and query
engine of the `Fernvndez/XML` repository.

The domain entities (`NFeFilter.Validate`, `NFeFilter.GetOffset`,
`NFeStatus.IsValid`) and the HTTP handler's query-parameter parsing are
embedded directly from the Go source (`nfe_domain_entity.go`, the handler
file).  The service layer (`SyncNFes`) and the repository layer
(`FindByFilter`, artifact path construction) are declared as interfaces in
the source but their implementations are not part of the source tree; those
are modelled from the specification, each such definition's doc comment
starts with `Modelled from the spec:`.
-/

/-- Calendar date used to model Go `time.Time` values at day granularity
(the only granularity the claims depend on). -/
structure GoDate where
  year : Int
  month : Int
  day : Int
deriving DecidableEq

/-- Linear key of a date: lexicographic year/month/day collapsed to one
integer, the order used to compare issuance timestamps. -/
def GoDate.key (d : GoDate) : Int :=
  d.year * 10000 + d.month * 100 + d.day

/-- Embedding of the Go string type `NFeStatus`. -/
abbrev NFeStatus := String

def NFeStatusAutorizada : NFeStatus := "autorizada"

def NFeStatusCancelada : NFeStatus := "cancelada"

def NFeStatusDenegada : NFeStatus := "denegada"

def NFeStatusRejeitada : NFeStatus := "rejeitada"

def NFeStatusProcessando : NFeStatus := "processando"

/-- Embedding of `NFeStatus.IsValid` from `nfe_domain_entity.go`: a switch
over the five recognized constants. -/
def NFeStatus.IsValid (s : NFeStatus) : Bool :=
  s == NFeStatusAutorizada || s == NFeStatusCancelada || s == NFeStatusDenegada ||
    s == NFeStatusRejeitada || s == NFeStatusProcessando

/-- Domain error values referenced by the source (`ErrInvalidStatus`,
`ErrNFeNotFound`). -/
inductive DomainErr where
  | invalidStatus
  | nfeNotFound
deriving DecidableEq

/-- Embedding of the `NFe` struct from `nfe_domain_entity.go`.  The Go
`ValorTotal` field is declared `float64`; its numeric content is carried
here as a rational, and the binary-floating-point nature of the Go field is
analysed separately through `float64Representable`.  The `uuid.UUID` id and
the bookkeeping clock values are abstracted as naturals. -/
structure NFe where
  id : Nat
  chaveAcesso : String
  numero : String
  serie : String
  cnpjEmitente : String
  nomeEmitente : String
  dataEmissao : GoDate
  valorTotal : ℚ
  xmlPath : String
  status : NFeStatus
  dataCancelamento : Option GoDate
  motivoCancelamento : String
  createdAt : Nat
  updatedAt : Nat
deriving DecidableEq

/-- Embedding of the `NFeFilter` struct from `nfe_domain_entity.go`.  Go
ints are modelled as `Int` (they can be negative), the `*time.Time` bounds
as `Option GoDate`. -/
structure NFeFilter where
  cnpjEmitente : String
  status : NFeStatus
  startDate : Option GoDate
  endDate : Option GoDate
  page : Int
  limit : Int
deriving DecidableEq

/-- Embedding of `NFeFilter.Validate` from `nfe_domain_entity.go`.  The Go
method mutates the receiver in place and returns an error; this is modelled
as returning the updated filter together with the optional error. -/
def NFeFilter.Validate (f : NFeFilter) : NFeFilter × Option DomainErr :=
  let f1 := if f.page < 1 then { f with page := 1 } else f
  let f2 := if f1.limit < 1 ∨ 100 < f1.limit then { f1 with limit := 20 } else f1
  if f2.status != "" && !(NFeStatus.IsValid f2.status) then
    (f2, some DomainErr.invalidStatus)
  else
    (f2, none)

/-- Embedding of `NFeFilter.GetOffset` from `nfe_domain_entity.go`. -/
def NFeFilter.GetOffset (f : NFeFilter) : Int :=
  (f.page - 1) * f.limit

/-- Embedding of the `Pagination` struct from `nfe_domain_entity.go`. -/
structure Pagination where
  page : Int
  limit : Int
  total : Int
deriving DecidableEq

/-- Embedding of the `NFePaginatedResponse` struct from
`nfe_domain_entity.go`. -/
structure NFePaginatedResponse where
  data : List NFe
  pagination : Pagination
deriving DecidableEq

/-- Embedding of the `SyncJobStatus` constants from
`nfe_domain_entity.go`. -/
inductive SyncJobStatus where
  | running
  | completed
  | failed
deriving DecidableEq

/-- Embedding of the `SyncJob` struct from `nfe_domain_entity.go`.  The
run-scoped uuid and the started/ended clock readings are supplied by the
environment and no claim depends on them, so they are not carried. -/
structure SyncJob where
  status : SyncJobStatus
  nfesFound : Nat
  nfesError : Nat
  errorMsg : String
deriving DecidableEq

/-- Comparison ordering NFe records by issuance date, most recent first
(descending), used to model the `ORDER BY data_emissao DESC` of the
repository's list query. -/
def emissaoGe (a b : NFe) : Prop :=
  GoDate.key b.dataEmissao ≤ GoDate.key a.dataEmissao

instance : DecidableRel emissaoGe :=
  fun a b => inferInstanceAs (Decidable (GoDate.key b.dataEmissao ≤ GoDate.key a.dataEmissao))

instance : IsTotal NFe emissaoGe :=
  ⟨fun a b => le_total (GoDate.key b.dataEmissao) (GoDate.key a.dataEmissao)⟩

instance : IsTrans NFe emissaoGe :=
  ⟨fun _ _ _ hab hbc => le_trans hbc hab⟩

/-- Modelled from the spec: the predicate built by the List operation —
exact match on issuer tax id and status when present, inclusive bounds on
the issuance timestamp when present (§4.2).  (The repository
implementation of `FindByFilter` is not part of the source tree.) -/
def matchesFilter (f : NFeFilter) (d : NFe) : Bool :=
  (f.cnpjEmitente == "" || d.cnpjEmitente == f.cnpjEmitente) &&
  (f.status == "" || d.status == f.status) &&
  (match f.startDate with
   | none => true
   | some s => decide (GoDate.key s ≤ GoDate.key d.dataEmissao)) &&
  (match f.endDate with
   | none => true
   | some e => decide (GoDate.key d.dataEmissao ≤ GoDate.key e))

/-- Modelled from the spec: `findByFilter` of the Document Store — applies
the filter predicate, orders by issuance timestamp descending, pages with
offset `(page-1)*limit` and the page size, and returns the page together
with the total matching count (§4.2, §6). -/
def findByFilter (store : List NFe) (f : NFeFilter) : List NFe × Int :=
  let matched := store.filter (matchesFilter f)
  let sorted := List.insertionSort emissaoGe matched
  ((sorted.drop (NFeFilter.GetOffset f).toNat).take f.limit.toNat, (matched.length : Int))

/-- Modelled from the spec: the service List operation — normalizes and
validates the filter first and queries the store only when validation
passes (§4.2, §7: validation failure is surfaced before any store access).
(The service implementation of `ListNFes` is not part of the source
tree.) -/
def listNFes (store : List NFe) (f : NFeFilter) : Except DomainErr NFePaginatedResponse :=
  match NFeFilter.Validate f with
  | (_, some e) => Except.error e
  | (f', none) =>
    let r := findByFilter store f'
    Except.ok { data := r.1, pagination := { page := f'.page, limit := f'.limit, total := r.2 } }

/-- Example filter with absent page and an out-of-range page size, used to
witness the normalization claims. -/
def filterPage0Limit500 : NFeFilter :=
  { cnpjEmitente := "", status := "", startDate := none, endDate := none, page := 0, limit := 500 }

/-- Example filter carrying the unrecognized status value used by the
spec's own test sketch. -/
def filterBogusStatus : NFeFilter :=
  { cnpjEmitente := "", status := "bogus", startDate := none, endDate := none, page := 1, limit := 20 }

/-- Example filter with all fields at their zero values. -/
def filterZero : NFeFilter :=
  { cnpjEmitente := "", status := "", startDate := none, endDate := none, page := 0, limit := 0 }

/-- Modelled from the spec: two-digit zero padding of the month component
of the artifact path. -/
def pad2 (n : Int) : String :=
  if n < 10 then "0" ++ toString n else toString n

/-- Modelled from the spec: the directory component of the artifact path,
derived only from the issuance date (year then zero-padded month).  The
service implementation that computes the path is not part of the source
tree; the shape is the spec's year/month layout, matching the paths in
`repository_test.go`. -/
def artifactDir (d : GoDate) : String :=
  toString d.year ++ "/" ++ pad2 d.month

/-- Modelled from the spec: the deterministic artifact path, the date
directory followed by the access key and the fixed .xml extension. -/
def artifactPath (d : GoDate) (chave : String) : String :=
  artifactDir d ++ "/" ++ chave ++ ".xml"

/-- The set of rational values exactly representable by an IEEE-754
binary64 number — the Go `float64` type declared for `NFe.ValorTotal` and
`NFeStats.ValorTotal`: a signed mantissa of magnitude below 2 to the 53,
scaled by an integral power of two. -/
def float64Representable (q : ℚ) : Prop :=
  ∃ m e : ℤ, |m| < 2 ^ 53 ∧ q = (m : ℚ) * (2 : ℚ) ^ e

/-- The set of values of the SQL column `valor_total DECIMAL(15, 2)` from
`migrations_sql.sql`: an integral count of hundredths with at most 15
digits. -/
def decimal152Representable (q : ℚ) : Prop :=
  ∃ n : ℤ, |n| < 10 ^ 15 ∧ q = (n : ℚ) / 100

/-- Numeric value of a decimal digit character. -/
def digitVal (ch : Char) : Nat :=
  ch.toNat - Char.toNat '0'

/-- Value of a list of decimal digit characters, most significant first. -/
def digitsToNat (l : List Char) : Nat :=
  l.foldl (fun n ch => n * 10 + digitVal ch) 0

/-- Embedding of Go `strconv.Atoi` as used by the handler: an optional
sign followed by at least one decimal digit; anything else is a parse
error, reported here as `none`.  (Overflow of the machine integer range is
not modelled; the claims only concern strings that are not integers at
all.) -/
def goAtoi (s : String) : Option Int :=
  match s.data with
  | [] => none
  | ch :: rest =>
    if ch = '-' then
      if rest ≠ [] ∧ rest.all Char.isDigit then some (-(digitsToNat rest : Int)) else none
    else if ch = '+' then
      if rest ≠ [] ∧ rest.all Char.isDigit then some ((digitsToNat rest : Int)) else none
    else
      if (ch :: rest).all Char.isDigit then some ((digitsToNat (ch :: rest) : Int)) else none

/-- Gregorian leap-year test, embedding the rule used by Go `time`. -/
def isLeapYear (y : Int) : Bool :=
  (y % 4 == 0 && y % 100 != 0) || y % 400 == 0

/-- Number of days of a month, embedding the table used by Go `time`. -/
def daysInMonth (y m : Int) : Int :=
  if m = 2 then (if isLeapYear y then 29 else 28)
  else if m = 4 ∨ m = 6 ∨ m = 9 ∨ m = 11 then 30
  else 31

/-- Embedding of Go `time.Parse` with layout 2006-01-02 as used by the
handler: exactly four digits, a dash, two digits, a dash, two digits, with
the month in 1..12 and the day valid for that month; anything else is a
parse error, reported here as `none`. -/
def parseDateISO (s : String) : Option GoDate :=
  match s.data with
  | [y1, y2, y3, y4, h1, m1, m2, h2, d1, d2] =>
    if h1 = '-' ∧ h2 = '-' ∧ [y1, y2, y3, y4, m1, m2, d1, d2].all Char.isDigit then
      let y : Int := (digitsToNat [y1, y2, y3, y4] : Int)
      let m : Int := (digitsToNat [m1, m2] : Int)
      let d : Int := (digitsToNat [d1, d2] : Int)
      if 1 ≤ m ∧ m ≤ 12 ∧ 1 ≤ d ∧ d ≤ daysInMonth y m then
        some { year := y, month := m, day := d }
      else none
    else none
  | _ => none

/-- The six query parameters read by the handler's list endpoint; absent
parameters are the empty string, exactly as Go's `Query().Get`. -/
structure ListQuery where
  cnpjEmitente : String
  status : String
  page : String
  limit : String
  startDate : String
  endDate : String

/-- Embedding of the filter literal at the top of `ListNFes` in the
handler: issuer and status copied from the query, everything else at its
zero value. -/
def initialFilter (q : ListQuery) : NFeFilter :=
  { cnpjEmitente := q.cnpjEmitente, status := q.status,
    startDate := none, endDate := none, page := 0, limit := 0 }

/-- Embedding of the page block of `ListNFes`: set the page only when the
parameter is present and parses as an integer. -/
def applyPageParam (q : ListQuery) (f : NFeFilter) : NFeFilter :=
  if q.page ≠ "" then
    match goAtoi q.page with
    | some p => { f with page := p }
    | none => f
  else f

/-- Embedding of the limit block of `ListNFes`. -/
def applyLimitParam (q : ListQuery) (f : NFeFilter) : NFeFilter :=
  if q.limit ≠ "" then
    match goAtoi q.limit with
    | some l => { f with limit := l }
    | none => f
  else f

/-- Embedding of the start-date block of `ListNFes`. -/
def applyStartDateParam (q : ListQuery) (f : NFeFilter) : NFeFilter :=
  if q.startDate ≠ "" then
    match parseDateISO q.startDate with
    | some d => { f with startDate := some d }
    | none => f
  else f

/-- Embedding of the end-date block of `ListNFes`. -/
def applyEndDateParam (q : ListQuery) (f : NFeFilter) : NFeFilter :=
  if q.endDate ≠ "" then
    match parseDateISO q.endDate with
    | some d => { f with endDate := some d }
    | none => f
  else f

/-- Embedding of the whole query-parameter parsing of `ListNFes`: the four
blocks applied in source order to the initial filter. -/
def buildListFilter (q : ListQuery) : NFeFilter :=
  applyEndDateParam q (applyStartDateParam q (applyLimitParam q (applyPageParam q (initialFilter q))))

/-- A request carrying one malformed value for each non-status parameter
together with an unrecognized status. -/
def malformedQuery : ListQuery :=
  { cnpjEmitente := "", status := "bogus", page := "12abc", limit := "oops",
    startDate := "2025-02-30", endDate := "not-a-date" }

/-- Modelled from the spec: the collaborators of one sync run — the
Authority Client's two operations (candidate enumeration for the fixed
issuer/window and per-key artifact fetch), the Artifact Store's write
outcome, and the pure extraction of the issuance date from the fetched
artifact bytes (the real service derives it from the XML payload).  All
are deterministic oracles, matching §6's interface contracts. -/
structure SefazEnv where
  enumerate : Except String (List String)
  fetchArtifact : String → Except String String
  writeArtifact : String → String → Bool
  emissaoOf : String → GoDate

/-- Modelled from the spec: the projection of a persisted Document record
that the sync path determines — access key, issuance date, deterministic
artifact path, and the initial authorized status (§3, §4.1 step 3b). -/
structure StoredDoc where
  chaveAcesso : String
  dataEmissao : GoDate
  xmlPath : String
  status : NFeStatus
deriving DecidableEq

/-- Modelled from the spec: the durable state a run touches — the Document
Store records and the Artifact Store writes, in write order. -/
structure SyncState where
  docs : List StoredDoc
  artifacts : List (String × String)
deriving DecidableEq

/-- The Document Store existence check by access key (`ExistsByChaveAcesso`
of §6). -/
def hasChave (st : SyncState) (k : String) : Bool :=
  st.docs.any (fun d => d.chaveAcesso == k)

/-- Accumulator of one run: the evolving store state, the found and error
counters, and the trace of keys for which an artifact fetch was issued. -/
structure RunAcc where
  store : SyncState
  found : Nat
  errs : Nat
  fetched : List String

/-- Modelled from the spec: fetch-and-store of one fresh candidate — fetch
the artifact bytes, compute the deterministic path, write the artifact,
and persist the record only when the write succeeded (§4.1 step 3b, §5's
persist-after-write policy).  Returns the record and bytes on success,
`none` on any failure. -/
def downloadResult (c : SefazEnv) (k : String) : Option (StoredDoc × String) :=
  match c.fetchArtifact k with
  | Except.error _ => none
  | Except.ok b =>
    let d := c.emissaoOf b
    let p := artifactPath d k
    if c.writeArtifact p b then
      some ({ chaveAcesso := k, dataEmissao := d, xmlPath := p, status := NFeStatusAutorizada }, b)
    else none

/-- Modelled from the spec: processing of one candidate key (§4.1 step 3) —
skip silently when the key is already on file (before issuing any fetch),
otherwise fetch, write and persist, counting a success in found and any
failure in errs and continuing. -/
def processCandidate (c : SefazEnv) (acc : RunAcc) (k : String) : RunAcc :=
  if hasChave acc.store k then acc
  else
    match downloadResult c k with
    | none =>
      { acc with fetched := acc.fetched ++ [k], errs := acc.errs + 1 }
    | some (doc, b) =>
      { store := { docs := acc.store.docs ++ [doc],
                   artifacts := acc.store.artifacts ++ [(doc.xmlPath, b)] },
        found := acc.found + 1,
        errs := acc.errs,
        fetched := acc.fetched ++ [k] }

/-- Modelled from the spec: one whole sync run (`RunSync` / `SyncNFes`,
§4.1) — enumerate candidates, fail the run with a summary and no store
writes when enumeration fails, otherwise fold the per-candidate step over
the candidate list and complete with the final counters.  Returns the
SyncJob summary together with the final accumulator (whose store is the
Document/Artifact Store state after the run). -/
def runSync (c : SefazEnv) (st : SyncState) : SyncJob × RunAcc :=
  match c.enumerate with
  | Except.error e =>
    ({ status := SyncJobStatus.failed, nfesFound := 0, nfesError := 0,
       errorMsg := "erro ao consultar NFes: " ++ e },
     { store := st, found := 0, errs := 0, fetched := [] })
  | Except.ok keys =>
    let acc := keys.foldl (processCandidate c) { store := st, found := 0, errs := 0, fetched := [] }
    ({ status := SyncJobStatus.completed, nfesFound := acc.found, nfesError := acc.errs,
       errorMsg := "" }, acc)

/-- Witness inputs: a client enumerating three keys, failing the fetch of
the middle one, an always-succeeding artifact write, and an empty initial
store. -/
def envC2 : SefazEnv :=
  { enumerate := Except.ok ["k1", "k2", "k3"],
    fetchArtifact := fun k => if k = "k2" then Except.error "timeout" else Except.ok ("xml-" ++ k),
    writeArtifact := fun _ _ => true,
    emissaoOf := fun _ => { year := 2025, month := 1, day := 1 } }

/-- The empty initial store. -/
def stEmpty : SyncState := { docs := [], artifacts := [] }

/-- Witness inputs: a client whose enumeration fails. -/
def envEnumFail : SefazEnv :=
  { enumerate := Except.error "conexao recusada",
    fetchArtifact := fun _ => Except.error "na",
    writeArtifact := fun _ _ => false,
    emissaoOf := fun _ => { year := 2025, month := 1, day := 1 } }

/-- Builder for the example documents of the ordering claim. -/
def mkNFe (n : Nat) (chave : String) (d : GoDate) : NFe :=
  { id := n, chaveAcesso := chave, numero := toString n, serie := "1",
    cnpjEmitente := "12345678000100", nomeEmitente := "Empresa Teste LTDA",
    dataEmissao := d, valorTotal := 100, xmlPath := artifactPath d chave,
    status := NFeStatusAutorizada, dataCancelamento := none, motivoCancelamento := "",
    createdAt := 0, updatedAt := 0 }

/-- Document issued on 2025-01-01. -/
def docJan : NFe := mkNFe 1 "chave-jan" { year := 2025, month := 1, day := 1 }

/-- Document issued on 2025-06-01. -/
def docJun : NFe := mkNFe 2 "chave-jun" { year := 2025, month := 6, day := 1 }

/-- Document issued on 2025-12-01. -/
def docDez : NFe := mkNFe 3 "chave-dez" { year := 2025, month := 12, day := 1 }

/-- Store holding the three example documents in ascending date order. -/
def exampleStore : List NFe := [docJan, docJun, docDez]

/-- Validated filter spanning the whole of 2025, first page, default page
size. -/
def fullYearFilter : NFeFilter :=
  { cnpjEmitente := "", status := "",
    startDate := some { year := 2025, month := 1, day := 1 },
    endDate := some { year := 2025, month := 12, day := 31 },
    page := 1, limit := 20 }

/-- Normal form of the filter returned by `Validate`: page forced to 1 when
below 1, limit reset to the default 20 when outside the window 1..100, all
other fields untouched. -/
theorem NFeFilter.validate_fst (f : NFeFilter) :
    (NFeFilter.Validate f).1 =
      { f with
        page := if f.page < 1 then 1 else f.page,
        limit := if f.limit < 1 ∨ 100 < f.limit then 20 else f.limit } := by
  cases f
  simp only [NFeFilter.Validate]
  split_ifs <;> simp_all

/-- The error component returned by `Validate` depends only on the status
field. -/
theorem NFeFilter.validate_snd (f : NFeFilter) :
    (NFeFilter.Validate f).2 =
      if f.status ≠ "" ∧ NFeStatus.IsValid f.status = false then
        some DomainErr.invalidStatus
      else none := by
  cases f
  simp only [NFeFilter.Validate]
  split_ifs <;>
    simp_all [bne_iff_ne, Bool.and_eq_true, Bool.not_eq_true']

/-- C4: after `Validate`, the page equals 1 whenever the input page was
absent (zero) or less than 1 and is kept otherwise; the page size equals 20
whenever the input page size was absent or outside 1..100 — in particular a
page size of 500 is reset to the default 20 — and page sizes inside 1..100
are kept unchanged. -/
theorem validate_normalizes_pagination (f : NFeFilter) :
    (f.page < 1 → (NFeFilter.Validate f).1.page = 1) ∧
    (1 ≤ f.page → (NFeFilter.Validate f).1.page = f.page) ∧
    ((f.limit < 1 ∨ 100 < f.limit) → (NFeFilter.Validate f).1.limit = 20) ∧
    (f.limit = 500 → (NFeFilter.Validate f).1.limit = 20) ∧
    (1 ≤ f.limit → f.limit ≤ 100 → (NFeFilter.Validate f).1.limit = f.limit) := by
  simp only [NFeFilter.validate_fst]
  refine ⟨?_, ?_, ?_, ?_, ?_⟩ <;> · intros; split_ifs <;> omega

/-- Witness for C4 at a concrete input: page 0 becomes 1 and page size 500
is reset to 20. -/
theorem validate_normalizes_pagination_witness :
    (NFeFilter.Validate filterPage0Limit500).1.page = 1 ∧
    (NFeFilter.Validate filterPage0Limit500).1.limit = 20 := by
  have h := validate_normalizes_pagination filterPage0Limit500
  exact ⟨h.1 (by decide), h.2.2.2.1 rfl⟩

/-- C5: `Validate` returns the validation error exactly when the status
field is non-empty and unrecognized, and in that case the List service
fails with that error without consulting the store (its answer is the same
for every store). -/
theorem invalid_status_rejected (f : NFeFilter) :
    ((NFeFilter.Validate f).2 = some DomainErr.invalidStatus ↔
      f.status ≠ "" ∧ NFeStatus.IsValid f.status = false) ∧
    (∀ s1 s2 : List NFe, f.status ≠ "" → NFeStatus.IsValid f.status = false →
      listNFes s1 f = Except.error DomainErr.invalidStatus ∧ listNFes s1 f = listNFes s2 f) := by
  constructor
  · rw [NFeFilter.validate_snd]
    split_ifs with h <;> simp [h]
  · intro s1 s2 h1 h2
    have hv : (NFeFilter.Validate f).2 = some DomainErr.invalidStatus := by
      rw [NFeFilter.validate_snd]
      simp [h1, h2]
    rcases hEq : NFeFilter.Validate f with ⟨f', err⟩
    rw [hEq] at hv
    have hv2 : err = some DomainErr.invalidStatus := hv
    subst hv2
    simp [listNFes, hEq]

/-- Witness for C5: status "bogus" yields the validation error and the
List service rejects it against the empty store. -/
theorem invalid_status_rejected_witness :
    (NFeFilter.Validate filterBogusStatus).2 = some DomainErr.invalidStatus ∧
    listNFes [] filterBogusStatus = Except.error DomainErr.invalidStatus := by
  have h := invalid_status_rejected filterBogusStatus
  exact ⟨h.1.mpr ⟨by decide, by decide⟩, (h.2 [] [] (by decide) (by decide)).1⟩

/-- C9: a filter on which `Validate` reports no error has been normalized
in place so that the page is at least 1, the page size lies in 1..100, and
`GetOffset` returns the non-negative value `(page - 1) * limit`. -/
theorem validated_filter_offset_invariant (f : NFeFilter)
    (h : (NFeFilter.Validate f).2 = none) :
    1 ≤ (NFeFilter.Validate f).1.page ∧
    1 ≤ (NFeFilter.Validate f).1.limit ∧
    (NFeFilter.Validate f).1.limit ≤ 100 ∧
    NFeFilter.GetOffset (NFeFilter.Validate f).1 =
      ((NFeFilter.Validate f).1.page - 1) * (NFeFilter.Validate f).1.limit ∧
    0 ≤ NFeFilter.GetOffset (NFeFilter.Validate f).1 := by
  simp only [NFeFilter.validate_fst, NFeFilter.GetOffset]
  refine ⟨?_, ?_, ?_, trivial, ?_⟩
  · split_ifs <;> omega
  · split_ifs <;> omega
  · split_ifs <;> omega
  · split_ifs <;> exact mul_nonneg (by omega) (by omega)

/-- Witness for C9 at the all-zero filter, whose validation succeeds. -/
theorem validated_filter_offset_invariant_witness :
    1 ≤ (NFeFilter.Validate filterZero).1.page ∧
    0 ≤ NFeFilter.GetOffset (NFeFilter.Validate filterZero).1 := by
  have h := validated_filter_offset_invariant filterZero (by decide)
  exact ⟨h.1, h.2.2.2.2⟩

/-- Appending a common prefix and a common suffix to a string is
injective. -/
theorem string_append_affix_inj (p s k1 k2 : String)
    (h : p ++ k1 ++ s = p ++ k2 ++ s) : k1 = k2 := by
  apply String.ext
  have h' := congrArg String.data h
  simp only [String.data_append, List.append_assoc] at h'
  exact List.append_cancel_right (List.append_cancel_left h')

/-- C8: the artifact path is a pure function of the issuance date and the
access key — recomputation yields the identical string; the path is the
date-derived directory followed by the key-derived filename, so changing
only the key changes the filename component (and hence the full path) but
never the directory component. -/
theorem artifact_path_deterministic :
    (∀ d k, artifactPath d k = artifactPath d k) ∧
    (∀ d k, artifactPath d k = artifactDir d ++ "/" ++ k ++ ".xml") ∧
    (∀ d k1 k2, k1 ≠ k2 → artifactPath d k1 ≠ artifactPath d k2) := by
  refine ⟨fun d k => rfl, fun d k => rfl, fun d k1 k2 hne heq => hne ?_⟩
  exact string_append_affix_inj (artifactDir d ++ "/") ".xml" k1 k2 heq

/-- Witness for C8: same issuance date, different keys, different paths. -/
theorem artifact_path_deterministic_witness :
    artifactPath { year := 2025, month := 12, day := 1 } "chaveA" ≠
      artifactPath { year := 2025, month := 12, day := 1 } "chaveB" :=
  artifact_path_deterministic.2.2 _ "chaveA" "chaveB" (by decide)

/-- C6 (refutation of the claim on the code): the monetary amount 1500.51
is a value of the fixed-point column `valor_total DECIMAL(15,2)`, yet it is
not representable by the binary floating-point type `float64` that the Go
struct declares for `NFe.ValorTotal`, so carrying monetary values through
the Go field does introduce binary floating-point precision loss. -/
theorem valorTotal_float64_precision_loss :
    decimal152Representable (150051 / 100) ∧ ¬ float64Representable (150051 / 100) := by
  constructor
  · exact ⟨150051, by norm_num, by norm_num⟩
  · rintro ⟨m, e, _hm, heq⟩
    rcases e with n | n
    · rw [Int.ofNat_eq_natCast, zpow_natCast] at heq
      rw [div_eq_iff (by norm_num : (100 : ℚ) ≠ 0)] at heq
      have h2 : (150051 : ℤ) = m * 2 ^ n * 100 := by exact_mod_cast heq
      have h5 : (5 : ℤ) ∣ 150051 := ⟨m * 2 ^ n * 20, by rw [h2]; ring⟩
      norm_num at h5
    · rw [zpow_negSucc] at heq
      have hne : ((2 : ℚ) ^ (n + 1)) ≠ 0 := by positivity
      field_simp at heq
      have h2 : (150051 : ℤ) * 2 ^ (n + 1) = m * 100 := by exact_mod_cast heq
      have h5 : (5 : ℤ) ∣ 150051 * 2 ^ (n + 1) := ⟨m * 20, by rw [h2]; ring⟩
      have hp : Prime (5 : ℤ) := by norm_num
      rcases hp.dvd_mul.mp h5 with h | h
      · norm_num at h
      · have h52 : (5 : ℤ) ∣ 2 := hp.dvd_of_dvd_pow h
        norm_num at h52

theorem goAtoi_empty : goAtoi "" = none := rfl

theorem applyPageParam_eq (q : ListQuery) (f : NFeFilter) :
    applyPageParam q f =
      { f with page := match goAtoi q.page with | some p => p | none => f.page } := by
  by_cases h : q.page = ""
  · simp [applyPageParam, h, goAtoi_empty]
  · simp only [applyPageParam, if_pos h]
    cases goAtoi q.page <;> rfl

theorem applyLimitParam_eq (q : ListQuery) (f : NFeFilter) :
    applyLimitParam q f =
      { f with limit := match goAtoi q.limit with | some l => l | none => f.limit } := by
  by_cases h : q.limit = ""
  · simp [applyLimitParam, h, goAtoi_empty]
  · simp only [applyLimitParam, if_pos h]
    cases goAtoi q.limit <;> rfl

theorem parseDateISO_empty : parseDateISO "" = none := rfl

theorem applyStartDateParam_eq (q : ListQuery) (f : NFeFilter) :
    applyStartDateParam q f =
      { f with startDate := match parseDateISO q.startDate with
                            | some d => some d
                            | none => f.startDate } := by
  by_cases h : q.startDate = ""
  · simp [applyStartDateParam, h, parseDateISO_empty]
  · simp only [applyStartDateParam, if_pos h]
    cases parseDateISO q.startDate <;> rfl

theorem applyEndDateParam_eq (q : ListQuery) (f : NFeFilter) :
    applyEndDateParam q f =
      { f with endDate := match parseDateISO q.endDate with
                          | some d => some d
                          | none => f.endDate } := by
  by_cases h : q.endDate = ""
  · simp [applyEndDateParam, h, parseDateISO_empty]
  · simp only [applyEndDateParam, if_pos h]
    cases parseDateISO q.endDate <;> rfl

/-- A filter whose status passes validation makes the List service answer
without an error. -/
theorem listNFes_no_error_of_valid (store : List NFe) (f : NFeFilter)
    (h : f.status = "" ∨ NFeStatus.IsValid f.status = true) :
    ∀ e, listNFes store f ≠ Except.error e := by
  have hv : (NFeFilter.Validate f).2 = none := by
    rw [NFeFilter.validate_snd]
    rcases h with h | h <;> simp [h]
  rcases hEq : NFeFilter.Validate f with ⟨f', err⟩
  rw [hEq] at hv
  have hv2 : err = none := hv
  subst hv2
  intro e
  simp [listNFes, hEq]

/-- A filter with a non-empty unrecognized status makes the List service
fail with the validation error. -/
theorem listNFes_error_of_invalid (store : List NFe) (f : NFeFilter)
    (h1 : f.status ≠ "") (h2 : NFeStatus.IsValid f.status = false) :
    listNFes store f = Except.error DomainErr.invalidStatus := by
  have hv : (NFeFilter.Validate f).2 = some DomainErr.invalidStatus := by
    rw [NFeFilter.validate_snd]
    simp [h1, h2]
  rcases hEq : NFeFilter.Validate f with ⟨f', err⟩
  rw [hEq] at hv
  have hv2 : err = some DomainErr.invalidStatus := hv
  subst hv2
  simp [listNFes, hEq]

/-- Normal form of the filter built by the handler from the raw query
parameters. -/
theorem buildListFilter_eq (q : ListQuery) :
    buildListFilter q =
      { cnpjEmitente := q.cnpjEmitente, status := q.status,
        startDate := match parseDateISO q.startDate with | some d => some d | none => none,
        endDate := match parseDateISO q.endDate with | some d => some d | none => none,
        page := match goAtoi q.page with | some p => p | none => 0,
        limit := match goAtoi q.limit with | some l => l | none => 0 } := by
  simp only [buildListFilter, applyPageParam_eq, applyLimitParam_eq,
    applyStartDateParam_eq, applyEndDateParam_eq, initialFilter]

/-- C10: the list endpoint silently drops malformed non-status query
parameters — a page or limit that does not parse as an integer leaves the
field at its zero value, a start or end date that does not parse as
YYYY-MM-DD leaves the bound unset — and the List service call fails with an
error exactly when the status parameter is non-empty and unrecognized. -/
theorem list_endpoint_drops_malformed (q : ListQuery) :
    (goAtoi q.page = none → (buildListFilter q).page = 0) ∧
    (goAtoi q.limit = none → (buildListFilter q).limit = 0) ∧
    (parseDateISO q.startDate = none → (buildListFilter q).startDate = none) ∧
    (parseDateISO q.endDate = none → (buildListFilter q).endDate = none) ∧
    (∀ store : List NFe,
      (∃ e, listNFes store (buildListFilter q) = Except.error e) ↔
        (q.status ≠ "" ∧ NFeStatus.IsValid q.status = false)) := by
  have hst : (buildListFilter q).status = q.status := by rw [buildListFilter_eq]
  refine ⟨?_, ?_, ?_, ?_, ?_⟩
  · intro h; rw [buildListFilter_eq]; simp [h]
  · intro h; rw [buildListFilter_eq]; simp [h]
  · intro h; rw [buildListFilter_eq]; simp [h]
  · intro h; rw [buildListFilter_eq]; simp [h]
  · intro store
    constructor
    · rintro ⟨e, he⟩
      by_cases h1 : q.status = ""
      · exact absurd he (listNFes_no_error_of_valid store _ (Or.inl (hst.trans h1)) e)
      · by_cases h2 : NFeStatus.IsValid q.status = true
        · exact absurd he (listNFes_no_error_of_valid store _ (Or.inr (by rw [hst]; exact h2)) e)
        · exact ⟨h1, by simpa using h2⟩
    · rintro ⟨h1, h2⟩
      exact ⟨DomainErr.invalidStatus,
        listNFes_error_of_invalid store _ (by rw [hst]; exact h1) (by rw [hst]; exact h2)⟩

/-- Witness for C10 at a concrete malformed request. -/
theorem list_endpoint_drops_malformed_witness :
    (buildListFilter malformedQuery).page = 0 ∧
    (buildListFilter malformedQuery).limit = 0 ∧
    (buildListFilter malformedQuery).startDate = none ∧
    (buildListFilter malformedQuery).endDate = none ∧
    (∃ e, listNFes [] (buildListFilter malformedQuery) = Except.error e) := by
  have h := list_endpoint_drops_malformed malformedQuery
  exact ⟨h.1 (by decide), h.2.1 (by decide), h.2.2.1 (by decide), h.2.2.2.1 (by decide),
    (h.2.2.2.2 []).mpr ⟨by decide, by decide⟩⟩

/-- One candidate step never removes a key from the Document Store. -/
theorem processCandidate_mono (c : SefazEnv) (acc : RunAcc) (k k0 : String)
    (h : hasChave acc.store k0 = true) :
    hasChave (processCandidate c acc k).store k0 = true := by
  unfold processCandidate
  split
  · exact h
  · cases hdr : downloadResult c k with
    | none => simpa using h
    | some p =>
      rcases p with ⟨doc, b⟩
      simp only [hasChave, List.any_append, Bool.or_eq_true] at h ⊢
      exact Or.inl h

/-- Folding the candidate step never removes a key from the Document
Store. -/
theorem foldl_processCandidate_mono (c : SefazEnv) (keys : List String) :
    ∀ (acc : RunAcc) (k0 : String), hasChave acc.store k0 = true →
      hasChave (List.foldl (processCandidate c) acc keys).store k0 = true := by
  induction keys with
  | nil => intro acc k0 h; simpa using h
  | cons k ks ih =>
    intro acc k0 h
    exact ih (processCandidate c acc k) k0 (processCandidate_mono c acc k k0 h)

/-- Unfolding equation of `downloadResult`. -/
theorem downloadResult_eq (c : SefazEnv) (k : String) :
    downloadResult c k =
      match c.fetchArtifact k with
      | Except.error _ => none
      | Except.ok b =>
        if c.writeArtifact (artifactPath (c.emissaoOf b) k) b then
          some ({ chaveAcesso := k, dataEmissao := c.emissaoOf b,
                  xmlPath := artifactPath (c.emissaoOf b) k,
                  status := NFeStatusAutorizada }, b)
        else none := rfl

/-- A successful download of key k yields a record keyed by k. -/
theorem downloadResult_chave (c : SefazEnv) (k : String) (doc : StoredDoc) (b : String)
    (h : downloadResult c k = some (doc, b)) : doc.chaveAcesso = k := by
  rcases hf : c.fetchArtifact k with e | bb
  · simp only [downloadResult_eq, hf] at h
    cases h
  · simp only [downloadResult_eq, hf] at h
    by_cases hw : c.writeArtifact (artifactPath (c.emissaoOf bb) k) bb = true
    · rw [if_pos hw] at h
      injection h with h2
      injection h2 with ha hb2
      subst ha
      rfl
    · rw [if_neg hw] at h
      cases h

/-- After a run, every candidate key is either on file or fails
deterministically. -/
theorem foldl_processCandidate_covers (c : SefazEnv) (keys : List String) :
    ∀ (acc : RunAcc) (k : String), k ∈ keys →
      hasChave (List.foldl (processCandidate c) acc keys).store k = true ∨
        downloadResult c k = none := by
  induction keys with
  | nil => intro acc k h; cases h
  | cons k' ks ih =>
    intro acc k hk
    rcases List.mem_cons.mp hk with rfl | hk
    · by_cases hex : hasChave acc.store k = true
      · exact Or.inl (foldl_processCandidate_mono c ks _ k (processCandidate_mono c acc k k hex))
      · have hb : hasChave acc.store k = false := by simpa using hex
        cases hdr : downloadResult c k with
        | none => exact Or.inr rfl
        | some p =>
          rcases p with ⟨doc, b⟩
          have hch : doc.chaveAcesso = k := downloadResult_chave c k doc b hdr
          refine Or.inl (foldl_processCandidate_mono c ks _ k ?_)
          simp only [processCandidate, hb, Bool.false_eq_true, if_false, hdr]
          simp [hasChave, List.any_append, hch]
    · exact ih (processCandidate c acc k') k hk

/-- A non-empty left part makes a string append non-empty. -/
theorem append_ne_empty_left (s t : String) (hs : s ≠ "") : s ++ t ≠ "" := by
  intro h
  apply hs
  apply String.ext
  have h' := congrArg String.data h
  rw [String.data_append] at h'
  exact (List.append_eq_nil.mp h').1

/-- When every candidate is either already on file or fails
deterministically, the fold leaves the store untouched, adds nothing to the
found counter, and only fetches keys that were not on file. -/
theorem foldl_processCandidate_stable (c : SefazEnv) (keys : List String) :
    ∀ (acc : RunAcc),
      (∀ k ∈ keys, hasChave acc.store k = true ∨ downloadResult c k = none) →
      (List.foldl (processCandidate c) acc keys).store = acc.store ∧
      (List.foldl (processCandidate c) acc keys).found = acc.found ∧
      (∀ k, k ∈ (List.foldl (processCandidate c) acc keys).fetched →
        k ∈ acc.fetched ∨ hasChave acc.store k = false) := by
  induction keys with
  | nil => intro acc _; exact ⟨rfl, rfl, fun k hk => Or.inl hk⟩
  | cons k' ks ih =>
    intro acc h
    by_cases hex : hasChave acc.store k' = true
    · have hstep : processCandidate c acc k' = acc := by simp [processCandidate, hex]
      rw [List.foldl_cons, hstep]
      exact ih acc (fun k hk => h k (List.mem_cons_of_mem k' hk))
    · have hb : hasChave acc.store k' = false := by simpa using hex
      have hdr : downloadResult c k' = none := by
        rcases h k' (List.mem_cons_self k' ks) with h4 | h4
        · exact absurd h4 hex
        · exact h4
      have hstep : processCandidate c acc k' =
          { acc with fetched := acc.fetched ++ [k'], errs := acc.errs + 1 } := by
        simp [processCandidate, hb, hdr]
      rw [List.foldl_cons, hstep]
      obtain ⟨h1, h2, h3⟩ :=
        ih { acc with fetched := acc.fetched ++ [k'], errs := acc.errs + 1 }
          (fun k hk => h k (List.mem_cons_of_mem k' hk))
      refine ⟨h1, h2, ?_⟩
      intro k hk
      rcases h3 k hk with hmem | hfalse
      · rcases List.mem_append.mp hmem with h4 | h4
        · exact Or.inl h4
        · have hkk : k = k' := by simpa using h4
          exact Or.inr (hkk ▸ hb)
      · exact Or.inr hfalse

/-- C1: running the sync twice against the same deterministic Authority
Client leaves the Document Store contents of the first run unchanged, the
second run's found counter is 0, and the second run only issues fetches for
keys that were not on file after the first run (existing keys are skipped
before any fetch). -/
theorem sync_idempotent_resync (c : SefazEnv) (st : SyncState) :
    (runSync c (runSync c st).2.store).2.store = (runSync c st).2.store ∧
    (runSync c (runSync c st).2.store).1.nfesFound = 0 ∧
    (∀ k, k ∈ (runSync c (runSync c st).2.store).2.fetched →
      hasChave (runSync c st).2.store k = false) := by
  rcases henum : c.enumerate with e | keys
  · simp [runSync, henum]
  · have hr1 : (runSync c st).2 =
        keys.foldl (processCandidate c) { store := st, found := 0, errs := 0, fetched := [] } := by
      simp [runSync, henum]
    have hcov : ∀ k ∈ keys,
        hasChave (runSync c st).2.store k = true ∨ downloadResult c k = none := by
      intro k hk
      rw [hr1]
      exact foldl_processCandidate_covers c keys _ k hk
    have hstab := foldl_processCandidate_stable c keys
      { store := (runSync c st).2.store, found := 0, errs := 0, fetched := [] } hcov
    have hr2 : (runSync c (runSync c st).2.store).2 =
        keys.foldl (processCandidate c)
          { store := (runSync c st).2.store, found := 0, errs := 0, fetched := [] } := by
      simp [runSync, henum]
    have hr2found : (runSync c (runSync c st).2.store).1.nfesFound =
        (keys.foldl (processCandidate c)
          { store := (runSync c st).2.store, found := 0, errs := 0, fetched := [] }).found := by
      simp [runSync, henum]
    refine ⟨?_, ?_, ?_⟩
    · rw [hr2]
      exact hstab.1
    · rw [hr2found]
      exact hstab.2.1
    · intro k hk
      rw [hr2] at hk
      rcases hstab.2.2 k hk with h4 | h4
      · exact absurd h4 (List.not_mem_nil k)
      · exact h4

/-- Witness for C1 at a concrete client and store. -/
theorem sync_idempotent_resync_witness :
    (runSync envC2 (runSync envC2 stEmpty).2.store).2.store = (runSync envC2 stEmpty).2.store ∧
    (runSync envC2 (runSync envC2 stEmpty).2.store).1.nfesFound = 0 :=
  ⟨(sync_idempotent_resync envC2 stEmpty).1, (sync_idempotent_resync envC2 stEmpty).2.1⟩

/-- When every candidate is fresh and the candidates are distinct, the run
counts one found per successful download and one error per failed one. -/
theorem foldl_processCandidate_fresh_counts (c : SefazEnv) (keys : List String) :
    ∀ (acc : RunAcc), keys.Nodup → (∀ k ∈ keys, hasChave acc.store k = false) →
      (List.foldl (processCandidate c) acc keys).found =
        acc.found + keys.countP (fun k => (downloadResult c k).isSome) ∧
      (List.foldl (processCandidate c) acc keys).errs =
        acc.errs + keys.countP (fun k => (downloadResult c k).isNone) := by
  induction keys with
  | nil => intro acc _ _; simp
  | cons k' ks ih =>
    intro acc hnd hfresh
    have hb : hasChave acc.store k' = false := hfresh k' (List.mem_cons_self k' ks)
    have hnd' : ks.Nodup := (List.nodup_cons.mp hnd).2
    have hknotin : k' ∉ ks := (List.nodup_cons.mp hnd).1
    cases hdr : downloadResult c k' with
    | none =>
      have hstep : processCandidate c acc k' =
          { acc with fetched := acc.fetched ++ [k'], errs := acc.errs + 1 } := by
        simp [processCandidate, hb, hdr]
      rw [List.foldl_cons, hstep]
      obtain ⟨h1, h2⟩ :=
        ih { acc with fetched := acc.fetched ++ [k'], errs := acc.errs + 1 } hnd'
          (fun k hk => hfresh k (List.mem_cons_of_mem k' hk))
      constructor
      · rw [h1, List.countP_cons]
        simp [hdr]
      · rw [h2, List.countP_cons]
        simp [hdr]
        omega
    | some p =>
      rcases p with ⟨doc, b⟩
      have hch : doc.chaveAcesso = k' := downloadResult_chave c k' doc b hdr
      have hstep : processCandidate c acc k' =
          { store := { docs := acc.store.docs ++ [doc],
                       artifacts := acc.store.artifacts ++ [(doc.xmlPath, b)] },
            found := acc.found + 1, errs := acc.errs, fetched := acc.fetched ++ [k'] } := by
        simp [processCandidate, hb, hdr]
      rw [List.foldl_cons, hstep]
      have hfresh2 : ∀ k ∈ ks,
          hasChave ({ store := { docs := acc.store.docs ++ [doc],
                                 artifacts := acc.store.artifacts ++ [(doc.xmlPath, b)] },
                      found := acc.found + 1, errs := acc.errs,
                      fetched := acc.fetched ++ [k'] } : RunAcc).store k = false := by
        intro k hk
        have h5 : acc.store.docs.any (fun d => d.chaveAcesso == k) = false :=
          hfresh k (List.mem_cons_of_mem k' hk)
        have hkk : k ≠ k' := fun hcontra => hknotin (hcontra ▸ hk)
        show (acc.store.docs ++ [doc]).any (fun d => d.chaveAcesso == k) = false
        rw [List.any_append, h5]
        simp [hch, beq_eq_false_iff_ne]
        exact Ne.symm hkk
      obtain ⟨h1, h2⟩ := ih _ hnd' hfresh2
      constructor
      · rw [h1, List.countP_cons]
        simp [hdr]
        omega
      · rw [h2, List.countP_cons]
        simp [hdr]

/-- C2: in a run over distinct candidates none of which are on file, where
the Authority Client fails the artifact fetch for exactly one candidate and
every other step succeeds, the run completes (it is not failed) with found
equal to the number of candidates minus one and exactly one error. -/
theorem sync_partial_failure_isolated (c : SefazEnv) (st : SyncState)
    (keys : List String) (bad msg : String)
    (henum : c.enumerate = Except.ok keys)
    (hnodup : keys.Nodup)
    (hfresh : ∀ k ∈ keys, hasChave st k = false)
    (hbad : bad ∈ keys)
    (hfail : c.fetchArtifact bad = Except.error msg)
    (hok : ∀ k ∈ keys, k ≠ bad → ∃ b, c.fetchArtifact k = Except.ok b)
    (hw : ∀ p b, c.writeArtifact p b = true) :
    (runSync c st).1.nfesFound = keys.length - 1 ∧
    (runSync c st).1.nfesError = 1 ∧
    (runSync c st).1.status = SyncJobStatus.completed := by
  have hcongr2 : keys.countP (fun k => (downloadResult c k).isNone) =
      keys.countP (fun k => k == bad) := by
    apply List.countP_congr
    intro k hk
    by_cases hkb : k = bad
    · subst hkb
      simp [downloadResult_eq, hfail]
    · obtain ⟨b, hb⟩ := hok k hk hkb
      simp [downloadResult_eq, hb, hw, hkb]
  have hcount2 : keys.countP (fun k => (downloadResult c k).isNone) = 1 := by
    rw [hcongr2]
    exact List.count_eq_one_of_mem hnodup hbad
  have hsum : keys.length = keys.countP (fun k => (downloadResult c k).isNone) +
      keys.countP (fun k => (downloadResult c k).isSome) := by
    have h0 := List.length_eq_countP_add_countP (fun k => (downloadResult c k).isNone) keys
    rw [h0]
    congr 1
    apply List.countP_congr
    intro k hk
    cases hx : downloadResult c k <;> simp
  have hcount1 : keys.countP (fun k => (downloadResult c k).isSome) = keys.length - 1 := by
    omega
  obtain ⟨h1, h2⟩ := foldl_processCandidate_fresh_counts c keys
    { store := st, found := 0, errs := 0, fetched := [] } hnodup (fun k hk => hfresh k hk)
  have hj1 : (runSync c st).1.nfesFound =
      (keys.foldl (processCandidate c) { store := st, found := 0, errs := 0, fetched := [] }).found := by
    simp [runSync, henum]
  have hj2 : (runSync c st).1.nfesError =
      (keys.foldl (processCandidate c) { store := st, found := 0, errs := 0, fetched := [] }).errs := by
    simp [runSync, henum]
  refine ⟨?_, ?_, ?_⟩
  · rw [hj1, h1, hcount1]
    show 0 + (keys.length - 1) = keys.length - 1
    omega
  · rw [hj2, h2, hcount2]
  · simp [runSync, henum]

/-- Witness for C2: three candidates, the middle fetch fails, found is 2,
error is 1, status completed. -/
theorem sync_partial_failure_isolated_witness :
    (runSync envC2 stEmpty).1.nfesFound = 2 ∧
    (runSync envC2 stEmpty).1.nfesError = 1 ∧
    (runSync envC2 stEmpty).1.status = SyncJobStatus.completed := by
  have h := sync_partial_failure_isolated envC2 stEmpty ["k1", "k2", "k3"] "k2" "timeout"
    rfl (by decide) (fun k _ => rfl) (by decide) rfl
    (fun k _ hne => ⟨"xml-" ++ k, by simp [envC2, hne]⟩) (fun _ _ => rfl)
  exact ⟨h.1, h.2.1, h.2.2⟩

/-- C3: a run's status is failed exactly when candidate enumeration fails,
and in that case the failure summary is non-empty, both counters are zero,
the store is untouched and no fetch was issued; when enumeration succeeds
the run always ends completed. -/
theorem sync_enumeration_failure_fatal (c : SefazEnv) (st : SyncState) :
    ((runSync c st).1.status = SyncJobStatus.failed ↔ ∃ e, c.enumerate = Except.error e) ∧
    (∀ e, c.enumerate = Except.error e →
      (runSync c st).1.nfesFound = 0 ∧ (runSync c st).1.nfesError = 0 ∧
      (runSync c st).1.errorMsg ≠ "" ∧ (runSync c st).2.store = st ∧
      (runSync c st).2.fetched = []) := by
  rcases henum : c.enumerate with e | keys
  · constructor
    · simp [runSync, henum]
    · intro e' _
      refine ⟨by simp [runSync, henum], by simp [runSync, henum], ?_,
        by simp [runSync, henum], by simp [runSync, henum]⟩
      have : (runSync c st).1.errorMsg = "erro ao consultar NFes: " ++ e := by
        simp [runSync, henum]
      rw [this]
      exact append_ne_empty_left _ _ (by decide)
  · constructor
    · simp [runSync, henum]
    · intro e' he'
      cases he'

/-- Witness for C3 at a concrete failing client. -/
theorem sync_enumeration_failure_fatal_witness :
    (runSync envEnumFail stEmpty).1.status = SyncJobStatus.failed ∧
    (runSync envEnumFail stEmpty).1.nfesFound = 0 ∧
    (runSync envEnumFail stEmpty).2.store = stEmpty := by
  have h := sync_enumeration_failure_fatal envEnumFail stEmpty
  have h2 := h.2 "conexao recusada" rfl
  exact ⟨h.1.mpr ⟨"conexao recusada", rfl⟩, h2.1, h2.2.2.2.1⟩

/-- C7: every page returned by the List operation is sorted by issuance
timestamp descending, and for a store containing documents dated
2025-01-01, 2025-06-01 and 2025-12-01 a query spanning the full year
returns them in December, June, January order with total count 3. -/
theorem list_ordering_desc :
    (∀ (store : List NFe) (f : NFeFilter),
      (findByFilter store f).1.Pairwise
        (fun a b => GoDate.key b.dataEmissao ≤ GoDate.key a.dataEmissao)) ∧
    findByFilter exampleStore fullYearFilter = ([docDez, docJun, docJan], 3) := by
  constructor
  · intro store f
    have hs : List.Sorted emissaoGe
        (List.insertionSort emissaoGe (store.filter (matchesFilter f))) :=
      List.sorted_insertionSort emissaoGe _
    have hsub : List.Sublist
        (((List.insertionSort emissaoGe (store.filter (matchesFilter f))).drop
            (NFeFilter.GetOffset f).toNat).take f.limit.toNat)
        (List.insertionSort emissaoGe (store.filter (matchesFilter f))) :=
      (List.take_sublist _ _).trans (List.drop_sublist _ _)
    exact List.Pairwise.sublist hsub hs
  · decide
